import Mathlib

/-
Verification of the vicon media-conversion CLI core against its source:
response validation (src/lib/ai.ts), prompt construction (src/lib/prompt.ts,
both the compact and the expanded revision), capability probing
(src/lib/tools.ts and its expanded revision), the interactive recovery loop
and the edit-commands action (src/index.ts).

Modelling conventions:
- JavaScript strings are Lean `String`s; string scanning is done on the
  underlying `List Char`.
- `JSON.parse` is modelled by `parseJsonList`, a fuel-based recursive-descent
  parser over the full JSON grammar.  Numbers are kept as their source
  lexeme (their numeric value is never consulted by the validator).  A lone
  `\uXXXX` surrogate escape, which JavaScript would keep as an unpaired
  UTF-16 code unit, maps through `Char.ofNat` (no Lean scalar exists for it);
  paired surrogates are combined exactly as in JavaScript.
- Fallible code returns `Except` / `Option`; a thrown `ValidationError`
  becomes `JsError.validation msg raw`, and the implicit TypeError raised by
  a property access on `null` becomes `JsError.typeError`.
- Process-global mutable state (the memoised capability snapshot) is passed
  explicitly as a cache value in and out of `detectContext`.
- Subprocess / network boundaries are cut at their text output: each probe
  or backend takes the raw text the external process would have produced
  (the `run` helper in tools.ts maps any spawn failure to "", so arbitrary
  strings cover every probe outcome).
-/

/-! ### Character classes and JavaScript `trim` -/

/-- JSON whitespace (the only characters `JSON.parse` skips between tokens). -/
def isJsonWs (c : Char) : Bool :=
  c == ' ' || c == '\t' || c == '\n' || c == '\r'

/-- The WhiteSpace ∪ LineTerminator set trimmed by JavaScript
`String.prototype.trim` and matched by the regex class `\s`. -/
def isJsWs (c : Char) : Bool :=
  let n := c.toNat
  n == 9 || n == 10 || n == 11 || n == 12 || n == 13 || n == 32 || n == 160 ||
  n == 0x1680 || (decide (0x2000 ≤ n) && decide (n ≤ 0x200a)) || n == 0x2028 ||
  n == 0x2029 || n == 0x202f || n == 0x205f || n == 0x3000 || n == 0xfeff

/-- Remove trailing JS whitespace. -/
def trimRight : List Char → List Char
  | [] => []
  | c :: r =>
    match trimRight r with
    | [] => if isJsWs c then [] else [c]
    | r' => c :: r'

/-- `String.prototype.trim` on the character list: drop leading and trailing
JS whitespace. -/
def jsTrimChars (l : List Char) : List Char :=
  trimRight (l.dropWhile isJsWs)

/-- `String.prototype.trim`. -/
def jsTrimStr (s : String) : String :=
  String.mk (jsTrimChars s.data)

/-! ### Markdown code-fence stripping (src/lib/ai.ts lines 18-21)

`raw.trim().replace(/^```(?:json)?\n?/, "").replace(/\n?```$/, "")`. -/

/-- The backtick character (written by code point to keep source lines
free of raw backticks). -/
def btick : Char := Char.ofNat 96

/-- Drop one leading newline if present (the `\n?` of the lead-fence regex). -/
def dropOptNl : List Char → List Char
  | [] => []
  | c :: r => if c = '\n' then r else c :: r

/-- Does the list start with three backticks? -/
def startsTicks : List Char → Bool
  | a :: b :: c :: _ => a == btick && b == btick && c == btick
  | _ => false

/-- `replace(/^```(?:json)?\n?/, "")`: strip one leading fence, preferring
the `json`-tagged form (regex greediness), then an optional newline. -/
def stripLeadFence (l : List Char) : List Char :=
  match l with
  | a :: b :: c :: rest =>
    if a == btick && b == btick && c == btick then
      match rest with
      | j :: s :: o :: n :: rest2 =>
        if j == 'j' && s == 's' && o == 'o' && n == 'n' then dropOptNl rest2
        else dropOptNl rest
      | _ => dropOptNl rest
    else l
  | _ => l

/-- Does the list end with three backticks? -/
def endsTicks (l : List Char) : Bool :=
  startsTicks l.reverse

/-- `replace(/\n?```$/, "")`: strip one trailing fence together with an
optional newline right before it (regex greediness prefers eating the
newline). -/
def stripTrailFence (l : List Char) : List Char :=
  match l.reverse with
  | a :: b :: c :: rest =>
    if a == btick && b == btick && c == btick then
      match rest with
      | d :: rest2 => if d = '\n' then rest2.reverse else rest.reverse
      | [] => []
    else l
  | _ => l

/-- The `cleaned` intermediate of `validateResponse`: trim, then strip an
optional leading fence, then an optional trailing fence. -/
def cleanedChars (l : List Char) : List Char :=
  stripTrailFence (stripLeadFence (jsTrimChars l))

/-! ### JSON values and `JSON.parse` -/

/-- A parsed JSON value.  Numbers keep their lexeme, objects keep all their
key/value pairs in source order (property lookup takes the last duplicate,
as a JavaScript object built by `JSON.parse` would). -/
inductive Json where
  | null
  | bool (b : Bool)
  | num (lexeme : String)
  | str (s : String)
  | arr (elems : List Json)
  | obj (members : List (String × Json))

/-- Value of one hex digit (codes 48-57 digits, 97-102 lowercase,
65-70 uppercase). -/
def hexVal (c : Char) : Option Nat :=
  let n := c.toNat
  if decide (48 ≤ n) && decide (n ≤ 57) then some (n - 48)
  else if decide (97 ≤ n) && decide (n ≤ 102) then some (n - 87)
  else if decide (65 ≤ n) && decide (n ≤ 70) then some (n - 55)
  else none

/-- Value of a four-hex-digit escape. -/
def hex4 (a b c d : Char) : Option Nat :=
  [a, b, c, d].foldl
    (fun acc ch =>
      match acc, hexVal ch with
      | some n, some v => some (16 * n + v)
      | _, _ => none)
    (some 0)

/-- Single-character escapes of the JSON string grammar. -/
def escChar (e : Char) : Option Char :=
  if e = '"' then some '"'
  else if e = '\\' then some '\\'
  else if e = '/' then some '/'
  else if e = 'b' then some (Char.ofNat 8)
  else if e = 'f' then some (Char.ofNat 12)
  else if e = 'n' then some '\n'
  else if e = 'r' then some '\r'
  else if e = 't' then some '\t'
  else none

/-- Parse a JSON string body after the opening quote; returns the decoded
characters and the input after the closing quote.  Surrogate pairs written
as two `\u` escapes are combined; unescaped control characters are
rejected, exactly as `JSON.parse` rejects them.  Structural on the fuel
(every step consumes input, so `length + 1` fuel always suffices). -/
def parseStringBody : Nat → List Char → Option (List Char × List Char)
  | 0, _ => none
  | Nat.succ fuel, l =>
    match l with
    | [] => none
    | '"' :: r => some ([], r)
    | '\\' :: 'u' :: a :: b :: c :: d :: r =>
      (match hex4 a b c d with
       | none => none
       | some h =>
         if decide (0xd800 ≤ h) && decide (h ≤ 0xdbff) then
           match r with
           | '\\' :: 'u' :: a2 :: b2 :: c2 :: d2 :: r2 =>
             (match hex4 a2 b2 c2 d2 with
              | some lo =>
                if decide (0xdc00 ≤ lo) && decide (lo ≤ 0xdfff) then
                  (parseStringBody fuel r2).map
                    (fun p => (Char.ofNat (0x10000 + (h - 0xd800) * 0x400 + (lo - 0xdc00)) :: p.1, p.2))
                else
                  (parseStringBody fuel r).map (fun p => (Char.ofNat h :: p.1, p.2))
              | none => (parseStringBody fuel r).map (fun p => (Char.ofNat h :: p.1, p.2)))
           | _ => (parseStringBody fuel r).map (fun p => (Char.ofNat h :: p.1, p.2))
         else
           (parseStringBody fuel r).map (fun p => (Char.ofNat h :: p.1, p.2)))
    | '\\' :: e :: r =>
      (match escChar e with
       | some ch => (parseStringBody fuel r).map (fun p => (ch :: p.1, p.2))
       | none => none)
    | c :: r =>
      if c.toNat < 32 then none
      else (parseStringBody fuel r).map (fun p => (c :: p.1, p.2))

/-- Skip JSON whitespace. -/
def skipWs : List Char → List Char
  | [] => []
  | c :: r => if isJsonWs c then skipWs r else c :: r

/-- Exponent part of a JSON number lexeme (after the mantissa). -/
def numExpPart (acc : List Char) (l : List Char) : Option (List Char × List Char) :=
  match l with
  | 'e' :: r | 'E' :: r =>
    let (sgn, r1) : List Char × List Char :=
      match r with
      | '+' :: r' => (['+'], r')
      | '-' :: r' => (['-'], r')
      | _ => ([], r)
    let ds := r1.takeWhile Char.isDigit
    if ds.isEmpty then none
    else some (acc ++ 'e' :: sgn ++ ds, r1.drop ds.length)
  | _ => some (acc, l)

/-- Fraction and exponent parts of a JSON number lexeme. -/
def numFracPart (acc : List Char) (l : List Char) : Option (List Char × List Char) :=
  match l with
  | '.' :: r =>
    let ds := r.takeWhile Char.isDigit
    if ds.isEmpty then none
    else numExpPart (acc ++ '.' :: ds) (r.drop ds.length)
  | _ => numExpPart acc l

/-- Lex a JSON number (sign, integer part without leading zeros, optional
fraction, optional exponent); returns the lexeme and the rest. -/
def parseNumber (l : List Char) : Option (List Char × List Char) :=
  let (sgn, l1) : List Char × List Char :=
    match l with
    | '-' :: r => (['-'], r)
    | _ => ([], l)
  match l1 with
  | c :: r =>
    if c = '0' then numFracPart (sgn ++ ['0']) r
    else if c.isDigit then
      let ds := (c :: r).takeWhile Char.isDigit
      numFracPart (sgn ++ ds) ((c :: r).drop ds.length)
    else none
  | [] => none

/-- Parser state: a value, the element loop of an array (first element
pending), or the member loop of an object (first key pending). -/
inductive PState where
  | value
  | elems (acc : List Json)
  | members (acc : List (String × Json))

/-- Recursive-descent JSON parser, structural on the fuel so that concrete
inputs evaluate by reduction.  Input positions handed to `value`, `elems`
and `members` have whitespace already skipped. -/
def parseP : Nat → PState → List Char → Option (Json × List Char)
  | 0, _, _ => none
  | Nat.succ fuel, PState.value, l =>
    match l with
    | 'n' :: 'u' :: 'l' :: 'l' :: r => some (Json.null, r)
    | 't' :: 'r' :: 'u' :: 'e' :: r => some (Json.bool true, r)
    | 'f' :: 'a' :: 'l' :: 's' :: 'e' :: r => some (Json.bool false, r)
    | '"' :: r => (parseStringBody (r.length + 1) r).map (fun p => (Json.str (String.mk p.1), p.2))
    | '[' :: r =>
      (match skipWs r with
       | ']' :: r2 => some (Json.arr [], r2)
       | r2 => parseP fuel (PState.elems []) r2)
    | '{' :: r =>
      (match skipWs r with
       | '}' :: r2 => some (Json.obj [], r2)
       | r2 => parseP fuel (PState.members []) r2)
    | _ => (parseNumber l).map (fun p => (Json.num (String.mk p.1), p.2))
  | Nat.succ fuel, PState.elems acc, l =>
    match parseP fuel PState.value l with
    | none => none
    | some (v, rest) =>
      match skipWs rest with
      | ',' :: r2 => parseP fuel (PState.elems (acc ++ [v])) (skipWs r2)
      | ']' :: r2 => some (Json.arr (acc ++ [v]), r2)
      | _ => none
  | Nat.succ fuel, PState.members acc, l =>
    match l with
    | '"' :: r =>
      (match parseStringBody (r.length + 1) r with
       | none => none
       | some (k, rest) =>
         match skipWs rest with
         | ':' :: r2 =>
           (match parseP fuel PState.value (skipWs r2) with
            | none => none
            | some (v, rest2) =>
              match skipWs rest2 with
              | ',' :: r3 => parseP fuel (PState.members (acc ++ [(String.mk k, v)])) (skipWs r3)
              | '}' :: r3 => some (Json.obj (acc ++ [(String.mk k, v)]), r3)
              | _ => none)
         | _ => none)
    | _ => none

/-- `JSON.parse` on a character list: one value, with surrounding whitespace
allowed and nothing else. -/
def parseJsonList (l : List Char) : Option Json :=
  match parseP (2 * l.length + 8) PState.value (skipWs l) with
  | some (j, rest) => if skipWs rest = [] then some j else none
  | none => none

/-! ### Response validation (src/lib/ai.ts, `validateResponse`) -/

/-- The validated contract `{ commands: string[], explanation: string }`. -/
structure GenerateResult where
  commands : List String
  explanation : String
deriving DecidableEq, Repr

/-- Errors `validateResponse` can raise: the typed `ValidationError`
carrying a message and the raw response text, or the untyped TypeError a
property access on `null` raises. -/
inductive JsError where
  | validation (msg : String) (raw : String)
  | typeError (msg : String)
deriving DecidableEq, Repr

def invalidJsonMsg : String := "Invalid JSON response from AI"

def missingFieldsMsg : String :=
  "Response missing required fields: commands (string[]) and explanation (string)"

def nullAccessMsg : String :=
  "TypeError: cannot read properties of null (reading commands)"

/-- Value of the last member with the given key, as JavaScript property
lookup on an object built by `JSON.parse` (later duplicate keys win). -/
def lookupLast (fields : List (String × Json)) (key : String) : Option Json :=
  match fields with
  | [] => none
  | (k, v) :: rest =>
    match lookupLast rest key with
    | some r => some r
    | none => if k = key then some v else none

/-- A JavaScript property read: present value or `undefined`. -/
inductive JsProp where
  | undef
  | val (j : Json)

/-- Property access `x[key]` on a non-null `JSON.parse` result: a field of
an object, `undefined` on everything else (primitives box, arrays have no
such string key).  Access on `null` throws and is handled before this is
called. -/
def getProp (j : Json) (key : String) : JsProp :=
  match j with
  | Json.obj fs =>
    (match lookupLast fs key with
     | some v => JsProp.val v
     | none => JsProp.undef)
  | _ => JsProp.undef

/-- `Array.isArray(x) && x.every(c => typeof c === "string")`, returning the
strings: `none` exactly when the check fails. -/
def asStringArray : JsProp → Option (List String)
  | JsProp.val (Json.arr elems) =>
    elems.foldr
      (fun e acc =>
        match e, acc with
        | Json.str s, some l => some (s :: l)
        | _, _ => none)
      (some [])
  | _ => none

/-- The shape check of `validateResponse` on a non-null parsed value:
`commands` must be an all-string array and `explanation` a string. -/
def validateShape (parsed : Json) : Option GenerateResult :=
  match asStringArray (getProp parsed "commands") with
  | none => none
  | some commands =>
    match getProp parsed "explanation" with
    | JsProp.val (Json.str s) => some ⟨commands, s⟩
    | _ => none

/-- `validateResponse` (src/lib/ai.ts lines 17-43): trim and strip an
optional fence, `JSON.parse` the cleaned text (parse failure throws a
`ValidationError` that carries the ORIGINAL raw text), then shape-check.
A parse result of `null` makes the source evaluate `obj.commands` on
`null`, which throws a TypeError instead of a `ValidationError`. -/
def validateResponse (raw : String) : Except JsError GenerateResult :=
  match parseJsonList (cleanedChars raw.data) with
  | none => Except.error (JsError.validation invalidJsonMsg raw)
  | some Json.null => Except.error (JsError.typeError nullAccessMsg)
  | some parsed =>
    match validateShape parsed with
    | some res => Except.ok res
    | none => Except.error (JsError.validation missingFieldsMsg raw)

/-! ### The two dispatcher post-processing paths (src/lib/ai.ts) -/

/-- Post-processing of the Cloudflare (RemoteChat) path after the HTTP
reply: `data.choices?.[0]?.message?.content ?? ""` fed to the shared
validator. -/
def cloudflarePostProcess (content : Option String) : Except JsError GenerateResult :=
  validateResponse (content.getD "")

/-- Post-processing of the Claude CLI (LocalAgent) path after the
subprocess exits: captured stdout text, `.trim()`ed, fed to the shared
validator. -/
def claudePostProcess (stdout : String) : Except JsError GenerateResult :=
  validateResponse (jsTrimStr stdout)

/-! ### Fence wrappers (for the fence-stripping property) -/

/-- Wrap a text in a leading ```json fence and a trailing ``` fence. -/
def fencedJson (text : String) : String :=
  "```json\n" ++ text ++ "\n```"

/-- Wrap a text in a plain leading ``` fence and a trailing ``` fence. -/
def fencedPlain (text : String) : String :=
  "```\n" ++ text ++ "\n```"

/-! ### Prompt construction (src/lib/prompt.ts, both revisions) -/

/-- ffmpeg entry of the capability snapshot consumed by the compact prompt
builder (`encoders`/`decoders` lists). -/
structure FfmpegCtx1 where
  installed : Bool
  version : Option String
  encoders : List String
  decoders : List String
deriving DecidableEq, Repr

/-- magick entry of the capability snapshot (same in both revisions). -/
structure MagickCtx where
  installed : Bool
  version : Option String
  formats : List String
deriving DecidableEq, Repr

/-- Capability snapshot consumed by the compact prompt builder. -/
structure ToolContext1 where
  ffmpeg : FfmpegCtx1
  magick : MagickCtx
deriving DecidableEq, Repr

/-- ffmpeg entry of the expanded capability snapshot
(`codecs`/`filters`/`bitstreamFilters`/`formats`). -/
structure FfmpegCtxX where
  installed : Bool
  version : Option String
  codecs : List String
  filters : List String
  bitstreamFilters : List String
  formats : List String
deriving DecidableEq, Repr

/-- Capability snapshot consumed by the expanded prompt builder. -/
structure ToolContextX where
  ffmpeg : FfmpegCtxX
  magick : MagickCtx
deriving DecidableEq, Repr

/-- The `ffmpegLine` of the compact prompt builder. -/
def ffmpegLine (c : FfmpegCtx1) : String :=
  if c.installed then
    "ffmpeg " ++ c.version.getD "unknown" ++ " | encoders: [" ++
      String.intercalate ", " c.encoders ++ "] | decoders: [" ++
      String.intercalate ", " c.decoders ++ "]"
  else "ffmpeg: not installed"

/-- The `magickLine` of the compact prompt builder. -/
def magickLine (c : MagickCtx) : String :=
  if c.installed then
    "magick " ++ c.version.getD "unknown" ++ " | formats: [" ++
      String.intercalate ", " c.formats ++ "]"
  else "magick: not installed"

/-- The `## Environment` section of the compact prompt builder. -/
def environmentSection (ctx : ToolContext1) : String :=
  "## Environment\n" ++ ffmpegLine ctx.ffmpeg ++ "\n" ++ magickLine ctx.magick

/-- The `## Rules` section of the compact prompt builder, verbatim. -/
def rulesSection : String :=
  "## Rules\nReturn ONLY valid JSON in this exact shape: \x7b \"commands\": string[], \"explanation\": string \x7d\n- explanation: plain prose only — no shell syntax, no backticks, no code\n- commands: complete, copy-pasteable shell strings — no placeholders, no &&, no loops\n- Only use tools that are listed as installed above\n- Prefer non-destructive output: append _converted to output filenames, use -n flag to avoid overwriting\n- For batch tasks, emit one command per file\nIMPORTANT: Reply with ONLY the JSON object — no markdown fences, no extra text"

/-- `buildSystemPrompt` (compact revision): `[environment, rules].join("\n\n")`. -/
def buildSystemPrompt (ctx : ToolContext1) : String :=
  String.intercalate "\n\n" [environmentSection ctx, rulesSection]

/-- `x.join(", ") || "none"`: the empty joined string is falsy in
JavaScript, so it is replaced by `"none"`. -/
def joinOrNone (l : List String) : String :=
  let s := String.intercalate ", " l
  if s = "" then "none" else s

/-- The `## Available Tools` section of the expanded prompt builder:
the pushed `lines` joined by newlines. -/
def availableToolsSection (ctx : ToolContextX) : String :=
  String.intercalate "\n"
    (["## Available Tools"] ++
     (if ctx.ffmpeg.installed then
        ["FFmpeg " ++ ctx.ffmpeg.version.getD "unknown",
         "  Codecs: " ++ joinOrNone ctx.ffmpeg.codecs,
         "  Filters: " ++ joinOrNone ctx.ffmpeg.filters,
         "  Bitstream filters: " ++ joinOrNone ctx.ffmpeg.bitstreamFilters,
         "  Formats: " ++ joinOrNone ctx.ffmpeg.formats]
      else ["FFmpeg: NOT installed — do not generate ffmpeg commands"]) ++
     (if ctx.magick.installed then
        ["magick " ++ ctx.magick.version.getD "unknown",
         "  Formats: " ++ joinOrNone ctx.magick.formats]
      else ["magick: NOT installed — do not generate magick commands"]))

/-- The `## Rules` section of the expanded prompt builder, verbatim. -/
def rulesSectionExpanded : String :=
  "## Rules\nReturn ONLY valid JSON in this exact shape: \x7b \"commands\": string[], \"explanation\": string \x7d\n- explanation: plain prose only — no shell syntax, no backticks, no code\n- commands: complete, copy-pasteable shell strings — no placeholders, no &&, no loops\n- BEFORE generating any command: choose the optimal codec and encoder from the available codecs list above for the target format, preferring hardware-accelerated encoders (e.g. h264_videotoolbox, hevc_videotoolbox) over software ones, and modern codecs (av1, hevc) over older ones when quality/efficiency matters\n- NEVER rely on FFmpeg auto-selection — always specify -c:v for video output and -c:a for audio output explicitly\n- If a required FFmpeg encoder is not available, use magick if the format is in its format list\n- If neither tool can handle the task, return \x7b \"commands\": [], \"explanation\": \"<reason why it cannot be done with available tools>\" \x7d\n- Prefer non-destructive output: append _converted to output filenames, use -n flag to avoid overwriting\n- For batch tasks, emit one command per file\nIMPORTANT: Reply with ONLY the JSON object — no markdown fences, no extra text"

/-- `buildSystemPrompt` (expanded revision): `[environment, rules].join("\n\n")`. -/
def buildSystemPromptExpanded (ctx : ToolContextX) : String :=
  String.intercalate "\n\n" [availableToolsSection ctx, rulesSectionExpanded]

/-- `buildUserPrompt`: the raw request, pass-through verbatim. -/
def buildUserPrompt (request : String) : String :=
  request

/-! ### Capability probing (src/lib/tools.ts, both revisions)

Each probe takes the trimmed stdout text of the external commands it runs;
the `run` helper returns `""` when the spawn fails, so `""` inputs cover
the tool-absent and probe-error outcomes. -/

/-- Is the pattern a prefix of the list? -/
def hasLead : List Char → List Char → Bool
  | [], _ => true
  | _ :: _, [] => false
  | a :: as, b :: bs => a == b && hasLead as bs

/-- First (leftmost) regex match of `marker(\S+)`: the first position where
the marker is followed by at least one non-whitespace character; returns
the greedy `\S+` capture. -/
def findTokenAfter (marker : List Char) : List Char → Option String
  | [] => none
  | c :: rest =>
    if hasLead marker (c :: rest) then
      let after := (c :: rest).drop marker.length
      let tok := after.takeWhile (fun ch => !isJsWs ch)
      if tok.isEmpty then findTokenAfter marker rest
      else some (String.mk tok)
    else findTokenAfter marker rest

/-- `l.trim().split(/\s+/)[0] ?? ""`: the first whitespace-separated field
of the trimmed line. -/
def firstField (l : List Char) : String :=
  String.mk ((jsTrimChars l).takeWhile (fun c => !isJsWs c))

/-- `l.trim().split(/\s+/)[1] ?? ""`: the second whitespace-separated field
of the trimmed line, or `""` when there is none. -/
def secondField (l : List Char) : String :=
  let t := jsTrimChars l
  let afterFirst := t.dropWhile (fun c => !isJsWs c)
  let start2 := afterFirst.dropWhile isJsWs
  String.mk (start2.takeWhile (fun c => !isJsWs c))

/-- `l[1]`: the character at index 1 (lines reaching this have passed a
pattern test guaranteeing at least 9 characters). -/
def charAtOne : List Char → Char
  | _ :: c :: _ => c
  | _ => ' '

def isUpperOrDot (c : Char) : Bool :=
  (decide ('A' ≤ c) && decide (c ≤ 'Z')) || c == '.'

/-- The test `/^ [VAS][A-Z.]{5} \S/` of the encoder/decoder line filter. -/
def encoderLineTest (l : List Char) : Bool :=
  match l with
  | c0 :: c1 :: c2 :: c3 :: c4 :: c5 :: c6 :: c7 :: c8 :: _ =>
    c0 == ' ' && (c1 == 'V' || c1 == 'A' || c1 == 'S') &&
    isUpperOrDot c2 && isUpperOrDot c3 && isUpperOrDot c4 &&
    isUpperOrDot c5 && isUpperOrDot c6 && c7 == ' ' && !isJsWs c8
  | _ => false

/-- `parseEncoderLines` of the `videoEncoders`/`audioEncoders` revision:
filter on the line pattern, keep the type letter (`l[1]`) and the second
field as name, drop entries with an empty name. -/
def parseEncoderLines (out : String) : List (Char × String) :=
  (((out.splitOn "\n").filter (fun l => encoderLineTest l.data)).map
    (fun l => (charAtOne l.data, secondField l.data))).filter
    (fun e => e.2 != "")

/-- ffmpeg entry of the probed snapshot (`videoEncoders`/`audioEncoders`
revision of tools.ts). -/
structure FfmpegInfo where
  installed : Bool
  version : Option String
  videoEncoders : List String
  audioEncoders : List String
  decoders : List String
deriving DecidableEq, Repr

/-- `probeFfmpeg` of the `videoEncoders`/`audioEncoders` revision, as a
function of the three probe outputs.  An empty (falsy) version output
degrades to the not-installed entry with empty lists. -/
def probeFfmpeg (versionOut encodersOut decodersOut : String) : FfmpegInfo :=
  if versionOut = "" then
    { installed := false, version := none, videoEncoders := [],
      audioEncoders := [], decoders := [] }
  else
    let version := findTokenAfter ("ffmpeg version ".data)
      (((versionOut.splitOn "\n").headD "").data)
    let encoderEntries := parseEncoderLines encodersOut
    { installed := true
      version := version
      videoEncoders := (encoderEntries.filter (fun e => e.1 == 'V')).map (fun e => e.2)
      audioEncoders := (encoderEntries.filter (fun e => e.1 == 'A')).map (fun e => e.2)
      decoders := (parseEncoderLines decodersOut).map (fun e => e.2) }

def isUpperOrDigit (c : Char) : Bool :=
  (decide ('A' ≤ c) && decide (c ≤ 'Z')) || (decide ('0' ≤ c) && decide (c ≤ '9'))

/-- The test `/^\s+[A-Z0-9]+\*?\s/` of the magick format line filter. -/
def magickFormatLineTest (l : List Char) : Bool :=
  match l with
  | [] => false
  | c :: _ =>
    isJsWs c &&
    (let body := l.dropWhile isJsWs
     let name := body.takeWhile isUpperOrDigit
     let rest := body.drop name.length
     !name.isEmpty &&
     (match rest with
      | '*' :: w :: _ => isJsWs w
      | w :: _ => isJsWs w
      | [] => false))

/-- `replace("*", "")` with a string pattern: remove only the first `*`. -/
def removeFirstStarChars : List Char → List Char
  | [] => []
  | c :: r => if c = '*' then r else c :: removeFirstStarChars r

/-- magick entry of the probed snapshot. -/
structure MagickInfo where
  installed : Bool
  version : Option String
  formats : List String
deriving DecidableEq, Repr

/-- `probeMagick` (identical in both revisions of tools.ts), as a function
of its two probe outputs. -/
def probeMagick (versionOut formatsOut : String) : MagickInfo :=
  if versionOut = "" then
    { installed := false, version := none, formats := [] }
  else
    { installed := true
      version := findTokenAfter ("Version: ImageMagick ".data)
        (((versionOut.splitOn "\n").headD "").data)
      formats :=
        (((formatsOut.splitOn "\n").filter (fun l => magickFormatLineTest l.data)).map
          (fun l => String.mk (removeFirstStarChars (firstField l.data).data))).filter
          (fun s => s != "") }

/-- First (leftmost) regex match of `marker([^)]+)\)`: the first position
where the marker is followed by at least one non-`)` character and then a
`)`; returns the capture. -/
def findCaptureParen (marker : List Char) : List Char → Option String
  | [] => none
  | c :: rest =>
    if hasLead marker (c :: rest) then
      let after := (c :: rest).drop marker.length
      let cap := after.takeWhile (fun ch => ch != ')')
      if cap.isEmpty then findCaptureParen marker rest
      else
        match after.drop cap.length with
        | ')' :: _ => some (String.mk cap)
        | _ => findCaptureParen marker rest
    else findCaptureParen marker rest

/-- The test `/^ [D.][E.][VASDT][I.][L.][S.] \S/` of the codec line filter
(expanded revision). -/
def codecLineTest (l : List Char) : Bool :=
  match l with
  | c0 :: c1 :: c2 :: c3 :: c4 :: c5 :: c6 :: c7 :: c8 :: _ =>
    c0 == ' ' && (c1 == 'D' || c1 == '.') && (c2 == 'E' || c2 == '.') &&
    (c3 == 'V' || c3 == 'A' || c3 == 'S' || c3 == 'D' || c3 == 'T') &&
    (c4 == 'I' || c4 == '.') && (c5 == 'L' || c5 == '.') &&
    (c6 == 'S' || c6 == '.') && c7 == ' ' && !isJsWs c8
  | _ => false

/-- Codec entry of the expanded probe: first field of `l.slice(8)`, with
`(encoders: ...)` appended when the line carries an encoder list. -/
def codecEntry (l : List Char) : String :=
  let rest := l.drop 8
  let name := firstField rest
  match findCaptureParen ("(encoders: ".data) rest with
  | some enc => name ++ " (encoders: " ++ enc ++ ")"
  | none => name

def isWordChar (c : Char) : Bool :=
  (decide ('a' ≤ c) && decide (c ≤ 'z')) || isUpperOrDigit c || c == '_'

/-- The test `/^ [T.][S.] \w/` of the filter line filter (expanded
revision). -/
def filterLineTest (l : List Char) : Bool :=
  match l with
  | c0 :: c1 :: c2 :: c3 :: c4 :: _ =>
    c0 == ' ' && (c1 == 'T' || c1 == '.') && (c2 == 'S' || c2 == '.') &&
    c3 == ' ' && isWordChar c4
  | _ => false

/-- `l.includes(sub)`. -/
def containsSub (needle : List Char) : List Char → Bool
  | [] => needle.isEmpty
  | c :: rest => hasLead needle (c :: rest) || containsSub needle rest

/-- Bitstream filter list of the expanded probe: every trimmed non-empty
line after the first line containing "Bitstream filters:", or `[]` when no
such line exists. -/
def bitstreamFromOut (bsfsOut : String) : List String :=
  let lines := bsfsOut.splitOn "\n"
  match lines.findIdx? (fun l => containsSub ("Bitstream filters:".data) l.data) with
  | some i => ((lines.drop (i + 1)).map (fun l => jsTrimStr l)).filter (fun s => s != "")
  | none => []

/-- The test `/^ [D ][E ][d ] \S/` of the format line filter (expanded
revision). -/
def formatLineTestX (l : List Char) : Bool :=
  match l with
  | c0 :: c1 :: c2 :: c3 :: c4 :: c5 :: _ =>
    c0 == ' ' && (c1 == 'D' || c1 == ' ') && (c2 == 'E' || c2 == ' ') &&
    (c3 == 'd' || c3 == ' ') && c4 == ' ' && !isJsWs c5
  | _ => false

/-- ffmpeg entry of the probed snapshot (expanded revision with codecs,
filters, bitstream filters and formats). -/
structure FfmpegInfoX where
  installed : Bool
  version : Option String
  codecs : List String
  filters : List String
  bitstreamFilters : List String
  formats : List String
deriving DecidableEq, Repr

/-- `probeFfmpeg` of the expanded revision, as a function of its five
probe outputs. -/
def probeFfmpegX (versionOut codecsOut filtersOut bsfsOut formatsOut : String) : FfmpegInfoX :=
  if versionOut = "" then
    { installed := false, version := none, codecs := [], filters := [],
      bitstreamFilters := [], formats := [] }
  else
    { installed := true
      version := findTokenAfter ("ffmpeg version ".data)
        (((versionOut.splitOn "\n").headD "").data)
      codecs :=
        (((codecsOut.splitOn "\n").filter (fun l => codecLineTest l.data)).map
          (fun l => codecEntry l.data)).filter (fun s => s != "")
      filters :=
        (((filtersOut.splitOn "\n").filter (fun l => filterLineTest l.data)).map
          (fun l => firstField (l.data.drop 4))).filter (fun s => s != "")
      bitstreamFilters := bitstreamFromOut bsfsOut
      formats :=
        (((formatsOut.splitOn "\n").filter (fun l => formatLineTestX l.data)).map
          (fun l => firstField (l.data.drop 5))).filter (fun s => s != "") }

/-! ### `detectContext` memoisation -/

/-- The snapshot `detectContext` assembles (over the
`videoEncoders`/`audioEncoders` revision; the expanded revision memoises
identically). -/
structure ToolSnapshot where
  ffmpeg : FfmpegInfo
  magick : MagickInfo
deriving DecidableEq, Repr

/-- The five probe outputs one full detection run would observe. -/
structure ProbeOutputs where
  ffVersion : String
  ffEncoders : String
  ffDecoders : String
  mgVersion : String
  mgFormats : String
deriving DecidableEq, Repr

/-- `detectContext` with the module-level `cached` variable made explicit:
takes the probe environment and the cache, returns the snapshot and the
new cache.  `if (cached) return cached` — any previously stored snapshot
(an object, hence truthy, even with both tools absent) short-circuits the
probes entirely. -/
def detectContext (env : ProbeOutputs) (cached : Option ToolSnapshot) :
    ToolSnapshot × Option ToolSnapshot :=
  match cached with
  | some c => (c, some c)
  | none =>
    let ctx : ToolSnapshot :=
      { ffmpeg := probeFfmpeg env.ffVersion env.ffEncoders env.ffDecoders
        magick := probeMagick env.mgVersion env.mgFormats }
    (ctx, some ctx)

/-! ### Recovery loop (src/index.ts: `generateUntilSuccess`,
`promptErrorRecovery`) and the edit-commands action -/

/-- One operator continuation offered after a failed generation attempt:
retry unchanged, edit the request text then retry, or cancel (cancelling
the edit text-box is also a cancel). -/
inductive RecoveryChoice where
  | retry
  | editPrompt (newText : String)
  | cancel
deriving DecidableEq, Repr

/-- Terminal states of the recovery loop. -/
inductive LoopOutcome where
  | success (result : GenerateResult) (userRequest : String)
  | cancelled
deriving DecidableEq, Repr

/-- `promptErrorRecovery`: `null` on cancel, the unchanged request on
retry, the edited text on edit-prompt. -/
def promptErrorRecovery (choice : RecoveryChoice) (currentRequest : String) : Option String :=
  match choice with
  | RecoveryChoice.cancel => none
  | RecoveryChoice.retry => some currentRequest
  | RecoveryChoice.editPrompt t => some t

/-- `generateUntilSuccess` over a scripted sequence of dispatcher outcomes
(one list entry consumed per `tryGenerate`, i.e. per dispatch call) and a
scripted sequence of operator choices.  Returns the terminal state
together with the number of dispatch calls made, or `none` when the
scripts run out before the loop terminates (the loop itself has no bound
other than operator cancellation). -/
def generateUntilSuccess :
    List (Option GenerateResult) → List RecoveryChoice → String → Option (LoopOutcome × Nat)
  | [], _, _ => none
  | some r :: _, _, req => some (LoopOutcome.success r req, 1)
  | none :: script, ops, req =>
    match ops with
    | [] => none
    | choice :: ops' =>
      match promptErrorRecovery choice req with
      | none => some (LoopOutcome.cancelled, 1)
      | some req' =>
        match generateUntilSuccess script ops' req' with
        | none => none
        | some (out, n) => some (out, n + 1)

/-- The edit-commands action (`handleEditCommandsAction` / the `edit`
branch of the action menu): split the submitted text on newlines, trim
each line, drop falsy (empty) lines, and replace only the `commands`
field of the current result. -/
def handleEditCommandsAction (current : GenerateResult) (edited : String) : GenerateResult :=
  { current with
    commands := ((edited.splitOn "\n").map (fun l => jsTrimStr l)).filter (fun s => s != "") }

/-! ### Helper lemmas -/

theorem dropWhile_idem (p : Char → Bool) (l : List Char) :
    List.dropWhile p (List.dropWhile p l) = List.dropWhile p l := by
  induction l with
  | nil => rfl
  | cons c r ih =>
    cases h : p c <;> simp [List.dropWhile_cons, h, ih]

theorem head_dropWhile_false (p : Char → Bool) (l : List Char) (c : Char)
    (h : (List.dropWhile p l).head? = some c) : p c = false := by
  induction l with
  | nil => simp at h
  | cons a r ih =>
    rw [List.dropWhile_cons] at h
    cases hp : p a with
    | true => rw [hp] at h; simp at h; exact ih h
    | false =>
      rw [hp] at h
      simp at h
      exact h ▸ hp

theorem dropWhile_eq_self (p : Char → Bool) (l : List Char)
    (h : ∀ c, l.head? = some c → p c = false) : List.dropWhile p l = l := by
  cases l with
  | nil => rfl
  | cons c r => simp [List.dropWhile_cons, h c rfl]

theorem trimRight_cons (c : Char) (l : List Char) (h : trimRight l ≠ []) :
    trimRight (c :: l) = c :: trimRight l := by
  cases ht : trimRight l with
  | nil => exact absurd ht h
  | cons x xs => simp [trimRight, ht]

theorem trimRight_idem (l : List Char) : trimRight (trimRight l) = trimRight l := by
  induction l with
  | nil => rfl
  | cons c r ih =>
    cases ht : trimRight r with
    | nil =>
      cases hc : isJsWs c <;> simp [trimRight, ht, hc]
    | cons x xs =>
      rw [ht] at ih
      have h1 : trimRight (c :: r) = c :: (x :: xs) := by simp [trimRight, ht]
      rw [h1, trimRight_cons c (x :: xs) (by rw [ih]; simp), ih]

theorem trimRight_head (l : List Char) :
    trimRight l = [] ∨ (trimRight l).head? = l.head? := by
  cases l with
  | nil => left; rfl
  | cons c r =>
    cases ht : trimRight r with
    | nil =>
      cases hc : isJsWs c
      · right; simp [trimRight, ht, hc]
      · left; simp [trimRight, ht, hc]
    | cons x xs => right; simp [trimRight, ht]

theorem jsTrimChars_idem (l : List Char) : jsTrimChars (jsTrimChars l) = jsTrimChars l := by
  unfold jsTrimChars
  have h1 : List.dropWhile isJsWs (trimRight (l.dropWhile isJsWs))
      = trimRight (l.dropWhile isJsWs) := by
    apply dropWhile_eq_self
    intro c hc
    rcases trimRight_head (l.dropWhile isJsWs) with h | h
    · rw [h] at hc; simp at hc
    · rw [h] at hc
      exact head_dropWhile_false isJsWs l c hc
  rw [h1, trimRight_idem]

theorem cleanedChars_jsTrim (l : List Char) :
    cleanedChars (jsTrimChars l) = cleanedChars l := by
  unfold cleanedChars
  rw [jsTrimChars_idem]

theorem trimRight_concat (l : List Char) (c : Char) (h : isJsWs c = false) :
    trimRight (l ++ [c]) = l ++ [c] := by
  induction l with
  | nil => simp [trimRight, h]
  | cons a r ih =>
    rw [List.cons_append, trimRight_cons a (r ++ [c]) (by rw [ih]; simp), ih]

theorem data_append (s u : String) : (s ++ u).data = s.data ++ u.data := rfl

theorem stripLeadFence_ticks (rest : List Char)
    (h : ∀ c, rest.head? = some c → (c == 'j') = false) :
    stripLeadFence (btick :: btick :: btick :: rest) = dropOptNl rest := by
  cases rest with
  | nil => simp [stripLeadFence]
  | cons j rest1 =>
    have hj : (j == 'j') = false := h j rfl
    cases rest1 with
    | nil => simp [stripLeadFence]
    | cons s rest2 =>
      cases rest2 with
      | nil => simp [stripLeadFence]
      | cons o rest3 =>
        cases rest3 with
        | nil => simp [stripLeadFence]
        | cons n rest4 => simp [stripLeadFence, hj]

theorem stripLeadFence_json (rest : List Char) :
    stripLeadFence (btick :: btick :: btick :: 'j' :: 's' :: 'o' :: 'n' :: rest)
      = dropOptNl rest := by
  simp [stripLeadFence]

theorem stripTrailFence_close (l : List Char) :
    stripTrailFence (l ++ ['\n', btick, btick, btick]) = l := by
  have hrev : (l ++ ['\n', btick, btick, btick]).reverse
      = btick :: btick :: btick :: '\n' :: l.reverse := by simp
  simp [stripTrailFence, hrev]

theorem isJsWs_btick : isJsWs btick = false := by decide

theorem jsTrim_btick_ends (mid : List Char) :
    jsTrimChars (btick :: (mid ++ [btick])) = btick :: (mid ++ [btick]) := by
  unfold jsTrimChars
  rw [List.dropWhile_cons, isJsWs_btick]
  simp only [Bool.false_eq_true, if_false]
  rw [show btick :: (mid ++ [btick]) = (btick :: mid) ++ [btick] from rfl]
  exact trimRight_concat (btick :: mid) btick isJsWs_btick

theorem cleanedChars_fencedJson (t : String) :
    cleanedChars (fencedJson t).data = t.data := by
  have hd : (fencedJson t).data =
      btick :: ((btick :: btick :: 'j' :: 's' :: 'o' :: 'n' :: '\n' ::
        (t.data ++ ['\n', btick, btick])) ++ [btick]) := by
    show ("```json\n" ++ t ++ "\n```").data = _
    rw [data_append, data_append]
    have h1 : ("```json\n").data
        = [btick, btick, btick, 'j', 's', 'o', 'n', '\n'] := rfl
    have h2 : ("\n```").data = ['\n', btick, btick, btick] := rfl
    rw [h1, h2]
    simp
  rw [hd]
  unfold cleanedChars
  rw [jsTrim_btick_ends]
  rw [show btick :: ((btick :: btick :: 'j' :: 's' :: 'o' :: 'n' :: '\n' ::
      (t.data ++ ['\n', btick, btick])) ++ [btick])
    = btick :: btick :: btick :: 'j' :: 's' :: 'o' :: 'n' ::
      ('\n' :: (t.data ++ ['\n', btick, btick, btick])) from by simp]
  rw [stripLeadFence_json]
  rw [show dropOptNl ('\n' :: (t.data ++ ['\n', btick, btick, btick]))
    = t.data ++ ['\n', btick, btick, btick] from by simp [dropOptNl]]
  exact stripTrailFence_close t.data

theorem cleanedChars_fencedPlain (t : String) :
    cleanedChars (fencedPlain t).data = t.data := by
  have hd : (fencedPlain t).data =
      btick :: ((btick :: btick :: '\n' ::
        (t.data ++ ['\n', btick, btick])) ++ [btick]) := by
    show ("```\n" ++ t ++ "\n```").data = _
    rw [data_append, data_append]
    have h1 : ("```\n").data = [btick, btick, btick, '\n'] := rfl
    have h2 : ("\n```").data = ['\n', btick, btick, btick] := rfl
    rw [h1, h2]
    simp
  rw [hd]
  unfold cleanedChars
  rw [jsTrim_btick_ends]
  rw [show btick :: ((btick :: btick :: '\n' ::
      (t.data ++ ['\n', btick, btick])) ++ [btick])
    = btick :: btick :: btick ::
      ('\n' :: (t.data ++ ['\n', btick, btick, btick])) from by simp]
  rw [stripLeadFence_ticks ('\n' :: (t.data ++ ['\n', btick, btick, btick]))
    (by
      intro c hc
      simp only [List.head?_cons, Option.some.injEq] at hc
      rw [← hc]
      decide)]
  rw [show dropOptNl ('\n' :: (t.data ++ ['\n', btick, btick, btick]))
    = t.data ++ ['\n', btick, btick, btick] from by simp [dropOptNl]]
  exact stripTrailFence_close t.data

theorem stripLeadFence_id (l : List Char) (h : startsTicks l = false) :
    stripLeadFence l = l := by
  match l with
  | [] => rfl
  | [a] => rfl
  | [a, b] => rfl
  | a :: b :: c :: rest =>
    simp only [startsTicks] at h
    simp only [stripLeadFence, h]
    rfl

theorem stripTrailFence_id (l : List Char) (h : endsTicks l = false) :
    stripTrailFence l = l := by
  unfold endsTicks at h
  unfold stripTrailFence
  match hr : l.reverse with
  | [] => rfl
  | [a] => rfl
  | [a, b] => rfl
  | a :: b :: c :: rest =>
    rw [hr] at h
    simp only [startsTicks] at h
    simp only [h]
    rfl

theorem validateResponse_ok_iff (a b : String)
    (h : cleanedChars a.data = cleanedChars b.data) (r : GenerateResult) :
    validateResponse a = Except.ok r ↔ validateResponse b = Except.ok r := by
  unfold validateResponse
  rw [h]
  cases hp : parseJsonList (cleanedChars b.data) with
  | none => simp
  | some j =>
    cases j with
    | null => simp
    | bool v => cases hv : validateShape (Json.bool v) <;> simp [hv]
    | num s => cases hv : validateShape (Json.num s) <;> simp [hv]
    | str s => cases hv : validateShape (Json.str s) <;> simp [hv]
    | arr es => cases hv : validateShape (Json.arr es) <;> simp [hv]
    | obj ms => cases hv : validateShape (Json.obj ms) <;> simp [hv]

/-! ### Claim theorems -/

/-- Claim C1.  The claim says every malformed response — including a
non-object parsed value — produces a `ValidationFailure` rather than a
crash.  The code violates this at the input `"null"`: `JSON.parse` yields
`null`, and the shape check then evaluates `obj.commands` on `null`, which
throws a TypeError, not the typed `ValidationError`.  Other non-object
parses (numbers, booleans) do degrade to a `ValidationError`, so `"null"`
is the precise failing input. -/
theorem validateResponse_null_crashes :
    validateResponse "null" = Except.error (JsError.typeError nullAccessMsg) ∧
    validateResponse "123" = Except.error (JsError.validation missingFieldsMsg "123") ∧
    validateResponse "true" = Except.error (JsError.validation missingFieldsMsg "true") :=
  ⟨rfl, rfl, rfl⟩

/-- Claim C2.  Whenever `validateResponse` raises a `ValidationError` —
at the parse step or at the shape-check step — the raw text it carries is
exactly the original input string, never the trimmed or fence-stripped
intermediate. -/
theorem validator_raw_preservation (raw msg t : String)
    (h : validateResponse raw = Except.error (JsError.validation msg t)) :
    t = raw := by
  unfold validateResponse at h
  cases hp : parseJsonList (cleanedChars raw.data) with
  | none =>
    rw [hp] at h
    simp at h
    exact h.2.symm
  | some j =>
    rw [hp] at h
    cases j with
    | null => simp at h
    | bool v =>
      dsimp only at h
      cases hv : validateShape (Json.bool v) with
      | none => rw [hv] at h; simp at h; exact h.2.symm
      | some res => rw [hv] at h; simp at h
    | num s =>
      dsimp only at h
      cases hv : validateShape (Json.num s) with
      | none => rw [hv] at h; simp at h; exact h.2.symm
      | some res => rw [hv] at h; simp at h
    | str s =>
      dsimp only at h
      cases hv : validateShape (Json.str s) with
      | none => rw [hv] at h; simp at h; exact h.2.symm
      | some res => rw [hv] at h; simp at h
    | arr es =>
      dsimp only at h
      cases hv : validateShape (Json.arr es) with
      | none => rw [hv] at h; simp at h; exact h.2.symm
      | some res => rw [hv] at h; simp at h
    | obj ms =>
      dsimp only at h
      cases hv : validateShape (Json.obj ms) with
      | none => rw [hv] at h; simp at h; exact h.2.symm
      | some res => rw [hv] at h; simp at h

/-- Witness for C2 at the concrete non-parseable input "not json". -/
theorem validator_raw_preservation_witness :
    validateResponse "not json"
      = Except.error (JsError.validation invalidJsonMsg "not json") ∧
    ("not json" : String) = "not json" :=
  ⟨rfl, validator_raw_preservation "not json" invalidJsonMsg "not json" rfl⟩

/-- Claim C3.  For a text that is already clean (no surrounding whitespace
or fence, `cleanedChars` is the identity on it) and validates
successfully, wrapping it in a leading ```json or ``` fence and a trailing
``` fence yields the same successful result; and the stripping step is the
identity (never fails) when no fence is present at either end. -/
theorem validator_fence_stripping (text : String) (r : GenerateResult)
    (hclean : cleanedChars text.data = text.data)
    (hok : validateResponse text = Except.ok r) :
    validateResponse (fencedJson text) = Except.ok r ∧
    validateResponse (fencedPlain text) = Except.ok r ∧
    (∀ l : List Char, startsTicks l = false → stripLeadFence l = l) ∧
    (∀ l : List Char, endsTicks l = false → stripTrailFence l = l) := by
  refine ⟨?_, ?_, stripLeadFence_id, stripTrailFence_id⟩
  · exact (validateResponse_ok_iff (fencedJson text) text
      (by rw [cleanedChars_fencedJson, hclean]) r).mpr hok
  · exact (validateResponse_ok_iff (fencedPlain text) text
      (by rw [cleanedChars_fencedPlain, hclean]) r).mpr hok

/-- Witness for C3 at a concrete valid response text. -/
theorem validator_fence_stripping_witness :
    validateResponse
        (fencedJson "\x7b\"commands\":[\"magick in.png out.jpg\"],\"explanation\":\"converts the image\"\x7d")
      = Except.ok ⟨["magick in.png out.jpg"], "converts the image"⟩ :=
  (validator_fence_stripping
    "\x7b\"commands\":[\"magick in.png out.jpg\"],\"explanation\":\"converts the image\"\x7d"
    ⟨["magick in.png out.jpg"], "converts the image"⟩ rfl rfl).1

/-- Claim C4.  The exact reply with an empty commands array and the
explanation "cannot be done" validates successfully: an empty command
sequence is a valid result, not a failure. -/
theorem empty_commands_valid :
    validateResponse "\x7b\"commands\":[],\"explanation\":\"cannot be done\"\x7d"
      = Except.ok ⟨[], "cannot be done"⟩ :=
  rfl

/-- Claim C5.  Feeding one fixed raw text through the Cloudflare path's
post-processing (`content ?? ""`, then the shared validator) and through
the Claude CLI path's post-processing (`stdout.trim()`, then the shared
validator) yields identical successful `GenerateResult` values: the two
backends are interchangeable at the validation boundary.  (On failure the
carried raw text differs — trimmed on one path — but no `GenerateResult`
is produced there.) -/
theorem dispatcher_parity (raw : String) (r : GenerateResult) :
    cloudflarePostProcess (some raw) = Except.ok r ↔
    claudePostProcess raw = Except.ok r := by
  have h : cleanedChars ((some raw).getD "").data = cleanedChars (jsTrimStr raw).data := by
    show cleanedChars raw.data = cleanedChars (jsTrimChars raw.data)
    exact (cleanedChars_jsTrim raw.data).symm
  exact validateResponse_ok_iff ((some raw).getD "") (jsTrimStr raw) h r

/-- Claim C6.  `buildSystemPrompt` is a pure function of the snapshot
(two applications to one snapshot are the same string), and in both
revisions the returned prompt is exactly the environment/capability
section, the blank-line separator, then the rules section — so the rules
(output-format contract) appear strictly after the environment section. -/
theorem prompt_deterministic_and_ordered (c1 : ToolContext1) (cx : ToolContextX) :
    buildSystemPrompt c1 = buildSystemPrompt c1 ∧
    buildSystemPrompt c1 = environmentSection c1 ++ "\n\n" ++ rulesSection ∧
    buildSystemPromptExpanded cx
      = availableToolsSection cx ++ "\n\n" ++ rulesSectionExpanded :=
  ⟨rfl, rfl, rfl⟩

/-- Claim C7.  With scripted dispatcher outcomes (fail, fail, succeed) and
an operator who always retries, the recovery loop terminates in the
`success` state after exactly three dispatch calls; with an operator who
cancels on the first failure it terminates in `cancelled` after exactly
one dispatch call.  The dispatch count equals the script entries consumed:
the loop is the only component that ever re-invokes the dispatcher. -/
theorem recovery_loop_termination (r : GenerateResult) (req : String)
    (restScript : List (Option GenerateResult)) (restOps : List RecoveryChoice) :
    generateUntilSuccess [none, none, some r]
        [RecoveryChoice.retry, RecoveryChoice.retry] req
      = some (LoopOutcome.success r req, 3) ∧
    generateUntilSuccess (none :: restScript) (RecoveryChoice.cancel :: restOps) req
      = some (LoopOutcome.cancelled, 1) :=
  ⟨rfl, rfl⟩

/-- Claim C8.  The prober is a total function of the probe outputs (so it
never raises, for any probe outcome, including the empty output produced
when a probe process errors), always yields a structurally complete
snapshot, and whenever a tool's `installed` flag is false every one of
that tool's capability lists is empty — in both probe revisions;
`detectContext` assembles exactly the two probe results. -/
theorem prober_degradation (v e d mv mf cv fv bv fov : String) :
    ((probeFfmpeg v e d).installed = false →
      (probeFfmpeg v e d).videoEncoders = [] ∧
      (probeFfmpeg v e d).audioEncoders = [] ∧
      (probeFfmpeg v e d).decoders = []) ∧
    ((probeMagick mv mf).installed = false → (probeMagick mv mf).formats = []) ∧
    ((probeFfmpegX v cv fv bv fov).installed = false →
      (probeFfmpegX v cv fv bv fov).codecs = [] ∧
      (probeFfmpegX v cv fv bv fov).filters = [] ∧
      (probeFfmpegX v cv fv bv fov).bitstreamFilters = [] ∧
      (probeFfmpegX v cv fv bv fov).formats = []) ∧
    (detectContext ⟨v, e, d, mv, mf⟩ none).1
      = ⟨probeFfmpeg v e d, probeMagick mv mf⟩ := by
  refine ⟨?_, ?_, ?_, rfl⟩
  · intro h
    by_cases hv : v = ""
    · simp [probeFfmpeg, hv]
    · simp [probeFfmpeg, hv] at h
  · intro h
    by_cases hv : mv = ""
    · simp [probeMagick, hv]
    · simp [probeMagick, hv] at h
  · intro h
    by_cases hv : v = ""
    · simp [probeFfmpegX, hv]
    · simp [probeFfmpegX, hv] at h

/-- Witness for C8 at the empty probe outputs (tool missing / probe
process error). -/
theorem prober_degradation_witness :
    (probeFfmpeg "" "" "").videoEncoders = [] ∧
    (probeMagick "" "").formats = [] ∧
    (probeFfmpegX "" "" "" "" "").codecs = [] :=
  ⟨((prober_degradation "" "" "" "" "" "" "" "" "").1 rfl).1,
   (prober_degradation "" "" "" "" "" "" "" "" "").2.1 rfl,
   ((prober_degradation "" "" "" "" "" "" "" "" "").2.2.1 rfl).1⟩

/-- Claim C9.  `detectContext` is memoised: after a first call populates
the cache with any snapshot (including one where both tools are absent),
any later call — with any probe environment, which is never consulted —
returns exactly the cached snapshot and leaves the cache unchanged. -/
theorem detect_context_memoized (e1 e2 : ProbeOutputs) :
    detectContext e2 (detectContext e1 none).2
      = ((detectContext e1 none).1, (detectContext e1 none).2) :=
  rfl

/-- Claim C10.  The edit-commands action keeps the explanation of the
current result unchanged and replaces the commands with exactly the lines
of the submitted text, each trimmed, with empty (falsy) lines dropped. -/
theorem edit_commands_action_frame (current : GenerateResult) (edited : String) :
    (handleEditCommandsAction current edited).explanation = current.explanation ∧
    (handleEditCommandsAction current edited).commands
      = ((edited.splitOn "\n").map (fun l => jsTrimStr l)).filter (fun s => s != "") :=
  ⟨rfl, rfl⟩
